import Mathlib

/-!
Verification of the bounded correlation/regression accumulator
(`libraries/Correlation`, class `Correlation`) and of the AD9850 DDS
driver frequency setter (`AD985X.cpp`, `AD9850::setFrequency`).

Shallow embedding notes.
* The repository ships `Correlation.h` (declarations and the inline
  getters) and the library README, but `Correlation.cpp` with the bodies
  of `add`, `clear`, `calculate`, `setXY`, `setX`, `setY`, `getX`, `getY`
  is not among the source files.  Those bodies are therefore modelled
  from the specification; each such definition carries a doc comment
  saying so.
* Sample values are C `float`s; they are idealised as real numbers.
  The only non-real float value the specification talks about is NaN
  ("B is set to NaN when the denominator is zero"), so cached statistics
  that can become NaN are embedded as `Option ℝ` with `none` playing the
  role of NaN; arithmetic on them propagates `none` the way IEEE
  arithmetic propagates NaN.
* The two backing arrays `_x`, `_y` (C arrays of `_size` floats) are
  embedded as total functions `Nat → ℝ`; every read the code performs is
  bounds-checked, so the values outside `[0, _size)` are never observed.
* Machine integers (`uint8_t` counters, `uint32_t`/`uint64_t` in the
  AD9850 driver) are `Nat` with explicit `% 2 ^ w` where wrap-around can
  occur.
-/

namespace Correlation

/-- Float values extended with NaN: `none` is NaN, `some v` the real `v`. -/
def NFloat : Type := Option ℝ

/-- NaN-propagating multiplication, the embedding of float `*` on values
that may be NaN: NaN times anything is NaN. -/
def nmul (a b : NFloat) : NFloat :=
  match a, b with
  | some a, some b => some (a * b)
  | _, _ => none

/-- State of one `Correlation` accumulator: the private fields of the
class (`Correlation.h` lines 105-125). -/
structure State where
  size : Nat
  idx : Nat
  count : Nat
  runningMode : Bool
  needRecalculate : Bool
  doE2 : Bool
  doR2 : Bool
  x : Nat → ℝ
  y : Nat → ℝ
  avgX : ℝ
  avgY : ℝ
  a : NFloat
  b : NFloat
  r : NFloat
  sumErrorSquare : NFloat
  sumXiYi : ℝ
  sumXi2 : ℝ
  sumYi2 : ℝ

/-- Modelled from the spec: `Correlation.cpp` is not among the sources.
Constructor `Correlation(uint8_t size = 20)` — capacity 0 is replaced by
the default 20, storage is allocated, `count = 0`, `writeIndex = 0`,
`runningMode = false`, dirty (`needRecalculate = true`), both toggles
default on, derived statistics zero-initialized ("if no elements are
added or calculate is not called the values for A and B are 0"). -/
def init (size : Nat) : State where
  size := if size = 0 then 20 else size
  idx := 0
  count := 0
  runningMode := false
  needRecalculate := true
  doE2 := true
  doR2 := true
  x := fun _ => 0
  y := fun _ => 0
  avgX := 0
  avgY := 0
  a := some 0
  b := some 0
  r := some 0
  sumErrorSquare := some 0
  sumXiYi := 0
  sumXi2 := 0
  sumYi2 := 0

/-- Modelled from the spec: `Correlation.cpp` is not among the sources.
`bool add(float x, float y)`:
* `count < N`: store the pair at `writeIndex`, increment `count`,
  advance `writeIndex` (circularly, so that it wraps to 0 when the
  buffer just became full and then points at the oldest sample),
  mark dirty, return true;
* `count == N` and running mode: overwrite the slot at `writeIndex`
  (oldest sample), advance `writeIndex` modulo `N`, mark dirty,
  return true;
* otherwise reject: return false, no change. -/
def add (s : State) (xv yv : ℝ) : Bool × State :=
  if s.count < s.size then
    (true, { s with
      x := Function.update s.x s.idx xv
      y := Function.update s.y s.idx yv
      idx := (s.idx + 1) % s.size
      count := s.count + 1
      needRecalculate := true })
  else if s.runningMode then
    (true, { s with
      x := Function.update s.x s.idx xv
      y := Function.update s.y s.idx yv
      idx := (s.idx + 1) % s.size
      needRecalculate := true })
  else
    (false, s)

/-- Modelled from the spec: `Correlation.cpp` is not among the sources.
`void clear()` resets `count = 0`, `writeIndex = 0`, marks dirty; the
storage is kept. -/
def clear (s : State) : State :=
  { s with count := 0, idx := 0, needRecalculate := true }

/-- `void setRunningCorrelation(bool rc)` — inline in `Correlation.h`. -/
def setRunningCorrelation (s : State) (rc : Bool) : State :=
  { s with runningMode := rc }

/-- `void setR2Calculation(bool doR2)` — inline in `Correlation.h`. -/
def setR2Calculation (s : State) (f : Bool) : State :=
  { s with doR2 := f }

/-- `void setE2Calculation(bool doE2)` — inline in `Correlation.h`. -/
def setE2Calculation (s : State) (f : Bool) : State :=
  { s with doE2 := f }

/-- `float getR()` — inline in `Correlation.h`: `return _r;`.  The body
reads one field and mutates nothing, so the embedding returns the value
with the state unchanged. -/
def getR (s : State) : NFloat × State := (s.r, s)

/-- `float getRsquare()` — inline in `Correlation.h`: `return _r * _r;`.
The body mutates nothing. -/
def getRsquare (s : State) : NFloat × State := (nmul s.r s.r, s)

/-- Modelled from the spec: `Correlation.cpp` is not among the sources.
`bool setXY(uint8_t idx, float x, float y)` — bounds-checked against
`count`; in range: overwrite the pair, mark dirty, return true;
out of range: return false, no mutation. -/
def setXY (s : State) (i : Nat) (xv yv : ℝ) : Bool × State :=
  if i < s.count then
    (true, { s with
      x := Function.update s.x i xv
      y := Function.update s.y i yv
      needRecalculate := true })
  else
    (false, s)

/-- Modelled from the spec: `Correlation.cpp` is not among the sources.
`bool setX(uint8_t idx, float x)` — as `setXY` for the X slot only. -/
def setX (s : State) (i : Nat) (xv : ℝ) : Bool × State :=
  if i < s.count then
    (true, { s with
      x := Function.update s.x i xv
      needRecalculate := true })
  else
    (false, s)

/-- Modelled from the spec: `Correlation.cpp` is not among the sources.
`bool setY(uint8_t idx, float y)` — as `setXY` for the Y slot only. -/
def setY (s : State) (i : Nat) (yv : ℝ) : Bool × State :=
  if i < s.count then
    (true, { s with
      y := Function.update s.y i yv
      needRecalculate := true })
  else
    (false, s)

/-- Modelled from the spec: `Correlation.cpp` is not among the sources.
`float getX(uint8_t idx)` — reading out of bounds (idx >= count)
returns 0 and never mutates. -/
def getX (s : State) (i : Nat) : ℝ × State :=
  (if i < s.count then s.x i else 0, s)

/-- Modelled from the spec: `Correlation.cpp` is not among the sources.
`float getY(uint8_t idx)` — as `getX` for the Y array. -/
def getY (s : State) (i : Nat) : ℝ × State :=
  (if i < s.count then s.y i else 0, s)

/-- `Σ xi` over the `count` valid slots, as the recompute loop forms it. -/
def sumX (s : State) : ℝ := ∑ i in Finset.range s.count, s.x i

/-- `Σ yi` over the `count` valid slots. -/
def sumY (s : State) : ℝ := ∑ i in Finset.range s.count, s.y i

/-- `Σ xi·yi` over the `count` valid slots. -/
def sumXYof (s : State) : ℝ := ∑ i in Finset.range s.count, s.x i * s.y i

/-- `Σ xi²` over the `count` valid slots. -/
def sumX2of (s : State) : ℝ := ∑ i in Finset.range s.count, s.x i * s.x i

/-- `Σ yi²` over the `count` valid slots. -/
def sumY2of (s : State) : ℝ := ∑ i in Finset.range s.count, s.y i * s.y i

/-- Denominator `count·sumXi2 − (Σxi)²` of the slope formula. -/
def denX (s : State) : ℝ := (s.count : ℝ) * sumX2of s - sumX s * sumX s

/-- The symmetric quantity `count·sumYi2 − (Σyi)²` for the Y data. -/
def denY (s : State) : ℝ := (s.count : ℝ) * sumY2of s - sumY s * sumY s

/-- Numerator `count·sumXiYi − Σxi·Σyi` shared by the slope and R. -/
def numXY (s : State) : ℝ := (s.count : ℝ) * sumXYof s - sumX s * sumY s

/-- Modelled from the spec: `Correlation.cpp` is not among the sources.
`bool calculate(bool forced)`:
* `count == 0`: return false, nothing changes;
* not forced and not dirty: return true immediately, nothing changes;
* otherwise recompute over the `count` valid slots: the averages, the
  uncentered sums, slope `B = numXY / denX` (NaN when the denominator is
  zero), intercept `A = avgY − B·avgX` (NaN propagates), Pearson
  `R = numXY / √(denX·denY)` when the R² toggle is on (NaN in the
  zero-variance degenerate case — the NaN branch of the spec's stated
  NaN-or-0 policy choice; stale when the toggle is off), the residual
  sum `Esquare = Σ (yi − (A + B·xi))²` when the E² toggle is on (stale
  when off), clear the dirty flag and return true. -/
noncomputable def calculate (s : State) (forced : Bool) : Bool × State :=
  if s.count = 0 then (false, s)
  else if forced = false ∧ s.needRecalculate = false then (true, s)
  else
    let n : ℝ := (s.count : ℝ)
    let b : NFloat :=
      if denX s = 0 then none else some (numXY s / denX s)
    let a : NFloat := Option.map (fun bv => sumY s / n - bv * (sumX s / n)) b
    let r : NFloat :=
      if s.doR2 then
        (if denX s * denY s = 0 then none
         else some (numXY s / Real.sqrt (denX s * denY s)))
      else s.r
    let e : NFloat :=
      if s.doE2 then
        (match a, b with
         | some av, some bv =>
            some (∑ i in Finset.range s.count, (s.y i - (av + bv * s.x i)) ^ 2)
         | _, _ => none)
      else s.sumErrorSquare
    (true, { s with
      avgX := sumX s / n
      avgY := sumY s / n
      a := a
      b := b
      r := r
      sumErrorSquare := e
      sumXiYi := sumXYof s
      sumXi2 := sumX2of s
      sumYi2 := sumY2of s
      needRecalculate := false })

/-- The documented bound `0 <= count <= N` on the number of valid slots. -/
def countInv (s : State) : Prop := 0 ≤ s.count ∧ s.count ≤ s.size

/-- Folds a list of samples through `add`, returning the number of calls
that returned true together with the final state. -/
def addTrace (s : State) : List (ℝ × ℝ) → Nat × State
  | [] => (0, s)
  | p :: ps =>
    let a := add s p.1 p.2
    let t := addTrace a.2 ps
    ((if a.1 then 1 else 0) + t.1, t.2)

/-- A concrete full accumulator of capacity 2 in running mode,
holding the samples (1, 2) and (3, 4). -/
noncomputable def wFull : State where
  size := 2
  idx := 0
  count := 2
  runningMode := true
  needRecalculate := true
  doE2 := true
  doR2 := true
  x := fun i => if i = 0 then 1 else 3
  y := fun i => if i = 0 then 2 else 4
  avgX := 0
  avgY := 0
  a := some 0
  b := some 0
  r := some 0
  sumErrorSquare := some 0
  sumXiYi := 0
  sumXi2 := 0
  sumYi2 := 0

/-- `wFull` with running mode switched off. -/
noncomputable def wFullStopped : State := setRunningCorrelation wFull false

/-- A concrete accumulator whose two samples share the X value 5. -/
noncomputable def wConstX : State :=
  { wFull with x := fun _ => 5 }

/-- The perfectly correlated dataset X = [1, 2, 3], Y = [2, 4, 6]. -/
noncomputable def wLinear : State :=
  { wFull with
    size := 3
    count := 3
    x := fun i => if i = 0 then 1 else if i = 1 then 2 else 3
    y := fun i => if i = 0 then 2 else if i = 1 then 4 else 6 }

end Correlation

namespace AD985X

/-- State of an `AD9850` driver, restricted to the fields `setFrequency`
touches.  Modelled from the spec: `AD985X.h` is not among the sources,
so the field declarations come from the `.cpp` file's uses: `_freq`
holds the last requested (clamped) frequency, `_factor` the 32-bit
tuning word the chip receives (`writeData` loads it into a `uint32_t`),
`_offset` a user calibration offset added to the factor.  `_offset` is
kept as the unsigned 32-bit pattern congruent to the signed value. -/
structure AD9850State where
  freq : Nat
  factor : Nat
  offset : Nat

/-- `void AD9850::setFrequency(uint32_t freq)` (`AD985X.cpp`): clamp
`freq` to `AD9850_MAX_FREQ`, compute
`_factor = (147573952589ULL * freq) >> 32` in 64-bit unsigned
arithmetic, store the clamped frequency, add `_offset` to `_factor`,
and push the data to the chip (`writeData()` only toggles pins and is
omitted).  Modelled from the spec: the value of the `AD9850_MAX_FREQ`
macro lives in the missing `AD985X.h`, so it is a parameter `maxFreq`
here.  The 64-bit product is `Nat` reduced `% 2 ^ 64`, the shift is
division by `2 ^ 32`, and the `uint32_t` stores reduce `% 2 ^ 32`. -/
def setFrequency (maxFreq : Nat) (s : AD9850State) (freq : Nat) : AD9850State :=
  let f := if freq > maxFreq then maxFreq else freq
  let factor := 147573952589 * f % 2 ^ 64 / 2 ^ 32 % 2 ^ 32
  { s with freq := f, factor := (factor + s.offset) % 2 ^ 32 }

end AD985X

namespace Correlation


/-- Claim C1: on a full accumulator (`count == size`) in running mode,
`add(x, y)` returns true, overwrites exactly the slot at `writeIndex`
(the oldest-inserted sample, circularly) in both arrays, advances
`writeIndex` modulo `size`, marks the accumulator dirty, and keeps
`count` equal to `size`. -/
theorem add_full_running_overwrites_oldest (s : State) (xv yv : ℝ)
    (hfull : s.count = s.size) (hrun : s.runningMode = true) :
    (add s xv yv).1 = true ∧
    (add s xv yv).2.x = Function.update s.x s.idx xv ∧
    (add s xv yv).2.y = Function.update s.y s.idx yv ∧
    (add s xv yv).2.idx = (s.idx + 1) % s.size ∧
    (add s xv yv).2.needRecalculate = true ∧
    (add s xv yv).2.count = s.size := by
  have hlt : ¬ s.count < s.size := by omega
  simp [add, hlt, hrun, hfull]

/-- Witness for C1: adding (9, 9) to the full running accumulator
`wFull` succeeds, overwrites slot 0, advances the index and keeps the
count at the capacity. -/
theorem add_full_running_overwrites_oldest_witness :
    (add wFull 9 9).1 = true ∧
    (add wFull 9 9).2.x = Function.update wFull.x wFull.idx 9 ∧
    (add wFull 9 9).2.y = Function.update wFull.y wFull.idx 9 ∧
    (add wFull 9 9).2.idx = (wFull.idx + 1) % wFull.size ∧
    (add wFull 9 9).2.needRecalculate = true ∧
    (add wFull 9 9).2.count = wFull.size :=
  add_full_running_overwrites_oldest wFull 9 9 rfl rfl

/-- Claim C2: on a full accumulator (`count == size`) that is not in
running mode, `add(x, y)` returns false and leaves the whole state
(count, writeIndex, stored pairs, dirty flag, everything) unchanged. -/
theorem add_full_not_running_rejects (s : State) (xv yv : ℝ)
    (hfull : s.count = s.size) (hrun : s.runningMode = false) :
    add s xv yv = (false, s) := by
  have hlt : ¬ s.count < s.size := by omega
  simp [add, hlt, hrun]

/-- Witness for C2: adding to the full non-running accumulator
`wFullStopped` fails and returns the state unchanged. -/
theorem add_full_not_running_rejects_witness :
    add wFullStopped 9 9 = (false, wFullStopped) :=
  add_full_not_running_rejects wFullStopped 9 9 rfl rfl

/-- Claim C4: `calculate(forced)` on an empty accumulator
(`count == 0`) returns false and changes nothing: every derived
statistic and the rest of the state keep their values. -/
theorem calculate_empty_fails (s : State) (forced : Bool)
    (h : s.count = 0) :
    calculate s forced = (false, s) := by
  simp [calculate, h]

/-- Witness for C4: `calculate` on a freshly constructed accumulator
fails and leaves it untouched. -/
theorem calculate_empty_fails_witness :
    calculate (init 20) true = (false, init 20) :=
  calculate_empty_fails (init 20) true rfl

/-- Claim C7: with an index `idx >= count`, the direct slot accessors
fail safely: `setXY`, `setX`, `setY` return false with the state
unchanged, and `getX`, `getY` return 0 without modifying the state. -/
theorem slot_accessors_out_of_range_safe (s : State) (i : Nat)
    (xv yv : ℝ) (h : s.count ≤ i) :
    setXY s i xv yv = (false, s) ∧
    setX s i xv = (false, s) ∧
    setY s i yv = (false, s) ∧
    getX s i = (0, s) ∧
    getY s i = (0, s) := by
  have hlt : ¬ i < s.count := by omega
  simp [setXY, setX, setY, getX, getY, hlt]

/-- Witness for C7: index 2 is out of range on the two-element
accumulator `wFull`; every accessor fails without mutation. -/
theorem slot_accessors_out_of_range_safe_witness :
    setXY wFull 2 7 7 = (false, wFull) ∧
    setX wFull 2 7 = (false, wFull) ∧
    setY wFull 2 7 = (false, wFull) ∧
    getX wFull 2 = (0, wFull) ∧
    getY wFull 2 = (0, wFull) :=
  slot_accessors_out_of_range_safe wFull 2 7 7 (by norm_num [wFull])

/-- Claim C9: in every state, `getRsquare()` returns exactly
`getR() * getR()` (float multiplication, NaN-propagating), and both
getters leave the state unchanged — their bodies only read `_r`. -/
theorem getRsquare_eq_getR_mul_getR (s : State) :
    (getRsquare s).1 = nmul (getR s).1 (getR s).1 ∧
    (getRsquare s).2 = s ∧ (getR s).2 = s :=
  ⟨rfl, rfl, rfl⟩

/-- Claim C5: on a non-empty accumulator, `calculate(false)` twice
with no mutation in between is idempotent: the second call returns
true and the state after it — every cached statistic, the dirty flag,
everything — equals the state after the first call.  (The second call
short-circuits on the clean dirty flag, so no recomputation happens.) -/
theorem calculate_unforced_idempotent (s : State) (h : 0 < s.count) :
    (calculate (calculate s false).2 false).1 = true ∧
    (calculate (calculate s false).2 false).2 = (calculate s false).2 := by
  have h0 : ¬ s.count = 0 := by omega
  cases hd : s.needRecalculate with
  | false => simp [calculate, h0, hd]
  | true => simp [calculate, h0, hd]

/-- Witness for C5: the second unforced `calculate` on `wFull` (two
samples) returns true and changes nothing. -/
theorem calculate_unforced_idempotent_witness :
    (calculate (calculate wFull false).2 false).1 = true ∧
    (calculate (calculate wFull false).2 false).2 = (calculate wFull false).2 :=
  calculate_unforced_idempotent wFull (by norm_num [wFull])

/-- Helper: a successful `add` in the fill branch. -/
lemma add_not_full (s : State) (xv yv : ℝ) (h : s.count < s.size) :
    add s xv yv = (true, { s with
      x := Function.update s.x s.idx xv
      y := Function.update s.y s.idx yv
      idx := (s.idx + 1) % s.size
      count := s.count + 1
      needRecalculate := true }) := by
  simp [add, h]

/-- Helper: `addTrace` on a non-running in-bounds state adds exactly
the number of successful `add`s to the count, stays within capacity,
and changes neither the capacity nor the mode. -/
lemma addTrace_count_spec (ps : List (ℝ × ℝ)) :
    ∀ s : State, s.runningMode = false → s.count ≤ s.size →
      (addTrace s ps).2.count = s.count + (addTrace s ps).1 ∧
      (addTrace s ps).2.count ≤ (addTrace s ps).2.size ∧
      (addTrace s ps).2.size = s.size := by
  induction ps with
  | nil => intro s _ hc; simpa [addTrace] using hc
  | cons p ps ih =>
    intro s hm hc
    by_cases hlt : s.count < s.size
    · have hstep := add_not_full s p.1 p.2 hlt
      have ihs := ih { s with
          x := Function.update s.x s.idx p.1
          y := Function.update s.y s.idx p.2
          idx := (s.idx + 1) % s.size
          count := s.count + 1
          needRecalculate := true } hm (by simpa using hlt)
      simp only [addTrace, hstep] at *
      refine ⟨?_, ihs.2.1, ihs.2.2⟩
      rw [if_pos trivial]
      omega
    · have hstep : add s p.1 p.2 = (false, s) := by simp [add, hlt, hm]
      have ihs := ih s hm hc
      simp only [addTrace, hstep] at *
      refine ⟨?_, ihs.2.1, ihs.2.2⟩
      rw [if_neg Bool.false_ne_true]
      omega

/-- Helper: `calculate` never changes `count` or `size`. -/
lemma calculate_preserves_admin (s : State) (f : Bool) :
    (calculate s f).2.count = s.count ∧ (calculate s f).2.size = s.size := by
  unfold calculate
  by_cases h0 : s.count = 0
  · simp [h0]
  · by_cases h1 : f = false ∧ s.needRecalculate = false
    · simp [h0, h1]
    · simp [h0, h1]

/-- Claim C3: the invariant `0 <= count <= size` holds in the initial
state and is preserved by every operation (`add`, `clear`,
`calculate`, the slot writers, the mode setter and the two toggles);
and for every sequence of `add` calls on a fresh accumulator the final
`count` equals the number of calls that returned true, capped at the
capacity. -/
theorem count_invariant_preserved (sz i : Nat) (s : State) (xv yv : ℝ)
    (f rc : Bool) (ps : List (ℝ × ℝ)) (hs : countInv s) :
    countInv (init sz) ∧
    countInv (add s xv yv).2 ∧
    countInv (clear s) ∧
    countInv (calculate s f).2 ∧
    countInv (setXY s i xv yv).2 ∧
    countInv (setX s i xv).2 ∧
    countInv (setY s i yv).2 ∧
    countInv (setRunningCorrelation s rc) ∧
    countInv (setR2Calculation s rc) ∧
    countInv (setE2Calculation s rc) ∧
    (addTrace (init sz) ps).2.count
      = min (addTrace (init sz) ps).1 (init sz).size := by
  obtain ⟨-, hc⟩ := hs
  refine ⟨?_, ?_, ?_, ?_, ?_, ?_, ?_, ?_, ?_, ?_, ?_⟩
  · constructor
    · exact Nat.zero_le _
    · by_cases hz : sz = 0 <;> simp [init, hz]
  · constructor
    · exact Nat.zero_le _
    · by_cases hlt : s.count < s.size
      · simp [add, hlt]
        omega
      · cases hr : s.runningMode <;> simp [add, hlt, hr] <;> omega
  · exact ⟨Nat.zero_le _, by simp [clear]⟩
  · have := calculate_preserves_admin s f
    exact ⟨Nat.zero_le _, by omega⟩
  · constructor
    · exact Nat.zero_le _
    · by_cases hlt : i < s.count <;> simp [setXY, hlt] <;> omega
  · constructor
    · exact Nat.zero_le _
    · by_cases hlt : i < s.count <;> simp [setX, hlt] <;> omega
  · constructor
    · exact Nat.zero_le _
    · by_cases hlt : i < s.count <;> simp [setY, hlt] <;> omega
  · exact ⟨Nat.zero_le _, by simp [setRunningCorrelation]; omega⟩
  · exact ⟨Nat.zero_le _, by simp [setR2Calculation]; omega⟩
  · exact ⟨Nat.zero_le _, by simp [setE2Calculation]; omega⟩
  · have h0 := addTrace_count_spec ps (init sz) (by simp [init]) (by simp [init])
    have hsz : (init sz).count = 0 := by simp [init]
    rw [hsz] at h0
    rw [h0.1, h0.2.2.symm]
    omega

/-- Helper: expanding a sum of centered products,
`Σ (m·fᵢ − Σf)(m·gᵢ − Σg) = m · (m·Σfg − Σf·Σg)`. -/
lemma sum_centered_expand (m : Nat) (f g : Nat → ℝ) :
    ∑ i in Finset.range m,
        ((m : ℝ) * f i - ∑ j in Finset.range m, f j) *
          ((m : ℝ) * g i - ∑ j in Finset.range m, g j)
      = (m : ℝ) * ((m : ℝ) * (∑ i in Finset.range m, f i * g i)
          - (∑ j in Finset.range m, f j) * (∑ j in Finset.range m, g j)) := by
  have h : ∀ i ∈ Finset.range m,
      ((m : ℝ) * f i - ∑ j in Finset.range m, f j) *
        ((m : ℝ) * g i - ∑ j in Finset.range m, g j)
      = (m : ℝ) ^ 2 * (f i * g i)
        - ((m : ℝ) * (∑ j in Finset.range m, g j)) * f i
        - ((m : ℝ) * (∑ j in Finset.range m, f j)) * g i
        + (∑ j in Finset.range m, f j) * (∑ j in Finset.range m, g j) := by
    intro i _
    ring
  rw [Finset.sum_congr rfl h]
  simp only [Finset.sum_add_distrib, Finset.sum_sub_distrib, ← Finset.mul_sum,
    Finset.sum_const, Finset.card_range, nsmul_eq_mul]
  ring

/-- Helper: Cauchy-Schwarz for the uncentered sums the recompute loop
forms: `(m·Σfg − Σf·Σg)² ≤ (m·Σf² − (Σf)²) · (m·Σg² − (Σg)²)`. -/
lemma centered_cauchy_schwarz (m : Nat) (f g : Nat → ℝ) (hm : 0 < m) :
    ((m : ℝ) * (∑ i in Finset.range m, f i * g i)
        - (∑ i in Finset.range m, f i) * (∑ i in Finset.range m, g i)) ^ 2
      ≤ ((m : ℝ) * (∑ i in Finset.range m, f i * f i)
          - (∑ i in Finset.range m, f i) * (∑ i in Finset.range m, f i))
        * ((m : ℝ) * (∑ i in Finset.range m, g i * g i)
          - (∑ i in Finset.range m, g i) * (∑ i in Finset.range m, g i)) := by
  have hn : (0 : ℝ) < (m : ℝ) := by exact_mod_cast hm
  have exy := sum_centered_expand m f g
  have exx := sum_centered_expand m f f
  have eyy := sum_centered_expand m g g
  have key := Finset.sum_mul_sq_le_sq_mul_sq (Finset.range m)
      (fun i => (m : ℝ) * f i - ∑ j in Finset.range m, f j)
      (fun i => (m : ℝ) * g i - ∑ j in Finset.range m, g j)
  simp only [pow_two] at key
  rw [exy, exx, eyy] at key
  nlinarith [key, hn, mul_pos hn hn]

/-- Helper: the slope denominator `count·ΣXi² − (ΣXi)²` is never
negative (Cauchy-Schwarz against the constant sequence 1). -/
lemma denX_nonneg (s : State) : 0 ≤ denX s := by
  have key := Finset.sum_mul_sq_le_sq_mul_sq (Finset.range s.count)
      s.x (fun _ => (1 : ℝ))
  simp only [mul_one, one_pow, Finset.sum_const, Finset.card_range,
    nsmul_eq_mul, pow_two] at key
  unfold denX sumX2of sumX
  nlinarith [key]

/-- Helper: the Y analogue of `denX_nonneg`. -/
lemma denY_nonneg (s : State) : 0 ≤ denY s := by
  have key := Finset.sum_mul_sq_le_sq_mul_sq (Finset.range s.count)
      s.y (fun _ => (1 : ℝ))
  simp only [mul_one, one_pow, Finset.sum_const, Finset.card_range,
    nsmul_eq_mul, pow_two] at key
  unfold denY sumY2of sumY
  nlinarith [key]

/-- Helper: Cauchy-Schwarz in terms of the statistics of a state. -/
lemma numXY_sq_le_den_mul_den (s : State) (h : 0 < s.count) :
    numXY s ^ 2 ≤ denX s * denY s := by
  have key := centered_cauchy_schwarz s.count s.x s.y h
  unfold numXY denX denY sumXYof sumX2of sumY2of sumX sumY
  exact key

/-- Claim C8: after a `calculate` that actually computes `R`
(`count > 0`, the R² toggle on, non-degenerate variances), the
correlation coefficient lies in `[-1, 1]` and consequently
`getRsquare` lies in `[0, 1]`. -/
theorem calculate_r_in_unit_interval (s : State) (forced : Bool)
    (hc : 0 < s.count) (hr2 : s.doR2 = true)
    (hdx : denX s ≠ 0) (hdy : denY s ≠ 0)
    (hrun : s.needRecalculate = true ∨ forced = true) :
    (calculate s forced).1 = true ∧
    ∃ rv, (calculate s forced).2.r = some rv ∧
      -1 ≤ rv ∧ rv ≤ 1 ∧
      (getRsquare (calculate s forced).2).1 = some (rv * rv) ∧
      0 ≤ rv * rv ∧ rv * rv ≤ 1 := by
  have h0 : ¬ s.count = 0 := by omega
  have hcond : ¬ (forced = false ∧ s.needRecalculate = false) := by
    rcases hrun with h | h <;> simp [h]
  have hdx' : 0 < denX s := lt_of_le_of_ne (denX_nonneg s) (Ne.symm hdx)
  have hdy' : 0 < denY s := lt_of_le_of_ne (denY_nonneg s) (Ne.symm hdy)
  have hprod : 0 < denX s * denY s := mul_pos hdx' hdy'
  have hrt : 0 < Real.sqrt (denX s * denY s) := Real.sqrt_pos.mpr hprod
  have habs : |numXY s| ≤ Real.sqrt (denX s * denY s) := by
    have h1 := Real.sqrt_le_sqrt (numXY_sq_le_den_mul_den s hc)
    rwa [Real.sqrt_sq_eq_abs] at h1
  have hr : (calculate s forced).2.r
      = some (numXY s / Real.sqrt (denX s * denY s)) := by
    simp [calculate, h0, hcond, hr2, hprod.ne']
  have hrv1 : |numXY s / Real.sqrt (denX s * denY s)| ≤ 1 := by
    rw [abs_div, abs_of_pos hrt]
    exact (div_le_one hrt).mpr habs
  obtain ⟨hlo, hhi⟩ := abs_le.mp hrv1
  refine ⟨?_, numXY s / Real.sqrt (denX s * denY s), hr, hlo, hhi, ?_,
    mul_self_nonneg _, abs_le_one_iff_mul_self_le_one.mp hrv1⟩
  · simp [calculate, h0, hcond]
  · simp [getRsquare, hr, nmul]


/-- Witness for C8: on X = [1, 2, 3], Y = [2, 4, 6] both variances are
non-degenerate, and the computed R and R² land in their intervals. -/
theorem calculate_r_in_unit_interval_witness :
    (calculate wLinear true).1 = true ∧
    ∃ rv, (calculate wLinear true).2.r = some rv ∧
      -1 ≤ rv ∧ rv ≤ 1 ∧
      (getRsquare (calculate wLinear true).2).1 = some (rv * rv) ∧
      0 ≤ rv * rv ∧ rv * rv ≤ 1 :=
  calculate_r_in_unit_interval wLinear true (by norm_num [wLinear, wFull])
    rfl
    (by norm_num [denX, sumX2of, sumX, wLinear, wFull,
      Finset.sum_range_succ, Finset.sum_range_zero])
    (by norm_num [denY, sumY2of, sumY, wLinear, wFull,
      Finset.sum_range_succ, Finset.sum_range_zero])
    (Or.inr rfl)

/-- Claim C6: if the `count > 0` samples all have the same X value
(zero X-variance), a `calculate` that recomputes (the accumulator is
dirty or the call is forced) succeeds and sets the slope `B` to NaN:
the denominator `count·ΣXi² − (ΣXi)²` vanishes exactly. -/
theorem calculate_constant_x_slope_nan (s : State) (forced : Bool)
    (hc : 0 < s.count) (hx : ∀ i < s.count, s.x i = s.x 0)
    (hrun : s.needRecalculate = true ∨ forced = true) :
    (calculate s forced).1 = true ∧ (calculate s forced).2.b = none := by
  have h0 : ¬ s.count = 0 := by omega
  have e1 : sumX s = (s.count : ℝ) * s.x 0 := by
    unfold sumX
    rw [Finset.sum_congr rfl fun i hi => hx i (Finset.mem_range.mp hi)]
    simp [mul_comm]
  have e2 : sumX2of s = (s.count : ℝ) * (s.x 0 * s.x 0) := by
    unfold sumX2of
    rw [Finset.sum_congr rfl fun i hi => by
      rw [hx i (Finset.mem_range.mp hi)]]
    simp [mul_comm]
  have hden : denX s = 0 := by
    unfold denX
    rw [e1, e2]
    ring
  have hcond : ¬ (forced = false ∧ s.needRecalculate = false) := by
    rcases hrun with h | h <;> simp [h]
  simp [calculate, h0, hcond, hden]


/-- Witness for C6: on two samples with X = [5, 5], a forced
`calculate` succeeds and yields a NaN slope. -/
theorem calculate_constant_x_slope_nan_witness :
    (calculate wConstX true).1 = true ∧ (calculate wConstX true).2.b = none :=
  calculate_constant_x_slope_nan wConstX true (by norm_num [wConstX, wFull])
    (fun i _ => rfl) (Or.inr rfl)

/-- Witness for C3: the invariant instantiated on the concrete state
`wFull` and a concrete two-sample trace on a fresh accumulator of
capacity 5. -/
theorem count_invariant_preserved_witness :
    countInv (init 5) ∧
    countInv (add wFull 1 2).2 ∧
    countInv (clear wFull) ∧
    countInv (calculate wFull false).2 ∧
    countInv (setXY wFull 0 1 2).2 ∧
    countInv (setX wFull 0 1).2 ∧
    countInv (setY wFull 0 2).2 ∧
    countInv (setRunningCorrelation wFull true) ∧
    countInv (setR2Calculation wFull true) ∧
    countInv (setE2Calculation wFull true) ∧
    (addTrace (init 5) [(1, 2), (3, 4)]).2.count
      = min (addTrace (init 5) [(1, 2), (3, 4)]).1 (init 5).size :=
  count_invariant_preserved 5 0 wFull 1 2 false true [(1, 2), (3, 4)]
    ⟨Nat.zero_le _, by norm_num [wFull]⟩

end Correlation

namespace AD985X

/-- Claim C10: `AD9850::setFrequency(freq)` first clamps `freq` to the
`AD9850_MAX_FREQ` bound (`maxFreq` here, since the header carrying the
macro is not among the sources), stores the clamped value in `_freq`,
and sets `_factor` to `((147573952589 * clamped) >> 32) + _offset`.
The hypotheses say the 64-bit product cannot wrap (which holds for the
datasheet-scale bound: `147573952589 * maxFreq < 2^64` for every
`maxFreq` up to 125 MHz) and that the factor-plus-offset sum fits the
32-bit register, so the modular arithmetic in the model is exact. -/
theorem setFrequency_clamps_and_factors (maxFreq : Nat) (s : AD9850State)
    (freq : Nat) (hm : 147573952589 * maxFreq < 2 ^ 64)
    (ho : 147573952589 * min freq maxFreq / 2 ^ 32 + s.offset < 2 ^ 32) :
    (setFrequency maxFreq s freq).freq = min freq maxFreq ∧
    (setFrequency maxFreq s freq).factor
      = 147573952589 * min freq maxFreq / 2 ^ 32 + s.offset := by
  have hf : (if freq > maxFreq then maxFreq else freq) = min freq maxFreq := by
    split <;> omega
  have h1 : 147573952589 * min freq maxFreq ≤ 147573952589 * maxFreq :=
    Nat.mul_le_mul_left _ (min_le_right _ _)
  have hdiv : 147573952589 * min freq maxFreq / 2 ^ 32 < 2 ^ 32 := by omega
  simp only [setFrequency, hf]
  refine ⟨trivial, ?_⟩
  rw [Nat.mod_eq_of_lt (lt_of_le_of_lt h1 hm), Nat.mod_eq_of_lt hdiv]
  exact Nat.mod_eq_of_lt ho

/-- Witness for C10: a driver with zero offset asked for 1 MHz under
the 40 MHz bound gets `_freq = 1000000` and the exact tuning factor. -/
theorem setFrequency_clamps_and_factors_witness :
    (setFrequency 40000000 (AD9850State.mk 0 0 0) 1000000).freq
      = min 1000000 40000000 ∧
    (setFrequency 40000000 (AD9850State.mk 0 0 0) 1000000).factor
      = 147573952589 * min 1000000 40000000 / 2 ^ 32
        + (AD9850State.mk 0 0 0).offset :=
  setFrequency_clamps_and_factors 40000000 (AD9850State.mk 0 0 0) 1000000
    (by norm_num) (by norm_num)

end AD985X
